import Mathlib

/-!
Verification of the Vector Retrieval Engine of the neurograph-rag repository.

The repository implements its backend in Python (`services/vector_store.py`,
`services/chunking.py`, `services/chat_service.py`, the FastAPI routes) and its
frontend in TypeScript (`ChatContainer`).  This file gives a shallow embedding
of those functions in Lean:

* numpy / faiss vector arithmetic is modelled over `ℝ` (`sqNorm`, `sqDist`,
  `dotp`, `normalizeL2`);
* the FAISS HNSW index is modelled by the list of stored vectors together with
  an abstract ANN answer `out : List (ℝ × Int)` standing for the pair
  `zip(distances[0], indices[0])` returned by `self.index.search`; the
  predicate `AnnValid` states exactly what FAISS guarantees about that pair
  (indices are `-1` or in range, and each reported distance is the true
  squared L2 distance to the stored vector), so every theorem quantifying over
  `out` holds for every possible ANN answer;
* disk persistence is modelled by the explicit list of file-system operations
  (`FsOp`) a call performs, and a small disk semantics `persistRun` that can
  fail at any position of that list.
-/

namespace NeurographRag

/-! ## Vector arithmetic (numpy / faiss.normalize_L2) -/

/-- Squared L2 norm of a vector, `np.dot(v, v)`. -/
def sqNorm (v : List ℝ) : ℝ := (v.map (fun x => x * x)).sum

/-- Inner product of two vectors. -/
def dotp (a b : List ℝ) : ℝ := (List.zipWith (fun x y => x * y) a b).sum

/-- Squared Euclidean distance, the metric FAISS `IndexHNSWFlat` (METRIC_L2)
reports in `distances`. -/
def sqDist (a b : List ℝ) : ℝ :=
  (List.zipWith (fun x y => (x - y) * (x - y)) a b).sum

/-- `faiss.normalize_L2`: divide every component by the L2 norm.  (For the zero
vector Lean's `x / 0 = 0` convention applies; no claim exercises that case.) -/
noncomputable def normalizeL2 (v : List ℝ) : List ℝ :=
  v.map (fun x => x / Real.sqrt (sqNorm v))

/-- Cosine similarity of two vectors. -/
noncomputable def cosineSim (a b : List ℝ) : ℝ :=
  dotp a b / (Real.sqrt (sqNorm a) * Real.sqrt (sqNorm b))

/-- A 2-d `np.ndarray`: `cols` is `shape[1]`, `data` the rows. -/
structure NDArray where
  cols : Nat
  data : List (List ℝ)

/-! ## Data model (`chunks.json`, `metadata.json`) -/

/-- One entry of `self.chunks` in `services/vector_store.py`. -/
structure Chunk where
  id : Nat
  file_id : String
  content : String
  chunk_index : Nat
  tokens : Nat
deriving DecidableEq, Inhabited

/-- One value of `self.metadata["documents"]`. -/
structure DocMeta where
  filename : String
  upload_date : String
  num_chunks : Nat
  total_tokens : Nat
deriving DecidableEq, Inhabited

/-- Payload written to disk by `_save_all`. -/
inductive FileData where
  | indexFile (vectors : List (List ℝ))
  | chunksFile (chunks : List Chunk)
  | metadataFile (docs : List (String × DocMeta))

/-- A file-system operation performed by persistence code.  `writeFile` is a
direct open/truncate/write of the final path (what `open(path, "w")` and
`faiss.write_index` do); `writeTemp`/`rename` are the write-to-temp-then-rename
pattern the specification talks about. -/
inductive FsOp where
  | writeFile (path : String) (content : FileData)
  | writeTemp (path : String) (content : FileData)
  | rename (src dst : String)

/-- `True` exactly on direct in-place writes. -/
def isDirectWrite : FsOp → Bool
  | .writeFile _ _ => true
  | _ => false

def VECTOR_DB_PATH : String := "vector_store"
def index_path : String := VECTOR_DB_PATH ++ "/index.faiss"
def chunks_path : String := VECTOR_DB_PATH ++ "/chunks.json"
def metadata_path : String := VECTOR_DB_PATH ++ "/metadata.json"

/-- Helper for `pyWords`: scan the character list, accumulating the current
word (reversed); whitespace ends the current word. -/
def splitWsAux : List Char → List Char → List String
  | [], acc => if acc.isEmpty then [] else [String.mk acc.reverse]
  | ch :: rest, acc =>
    if ch.isWhitespace then
      (if acc.isEmpty then [] else [String.mk acc.reverse]) ++ splitWsAux rest []
    else splitWsAux rest (ch :: acc)

/-- Python `str.split()` with no argument: the whitespace-separated words. -/
def pyWords (s : String) : List String := splitWsAux s.data []

/-- Python `not text or not text.strip()`: the string has no
non-whitespace character. -/
def isBlank (s : String) : Bool := s.data.all Char.isWhitespace

/-- The in-memory state of `VectorStore`: the FAISS index is represented by the
ordered list of stored (already normalized) vectors. -/
structure VectorStore where
  dimension : Nat
  vectors : List (List ℝ)
  chunks : List Chunk
  metadata : List (String × DocMeta)

/-- `VectorStore.__init__` with no file on disk: fresh empty `IndexHNSWFlat`
with `self.dimension = 1536`. -/
def init_store : VectorStore := ⟨1536, [], [], []⟩

/-- `self.index.ntotal`. -/
def VectorStore.ntotal (s : VectorStore) : Nat := s.vectors.length

/-- Python dict assignment `self.metadata["documents"][file_id] = md`:
replace in place, or append to the (insertion-ordered) dict. -/
def upsertDoc : List (String × DocMeta) → String → DocMeta → List (String × DocMeta)
  | [], k, v => [(k, v)]
  | (k', v') :: rest, k, v =>
    if k' = k then (k, v) :: rest else (k', v') :: upsertDoc rest k v

/-- `VectorStore._save_all`: write the FAISS index, `chunks.json` and
`metadata.json`.  Each file is written directly in place. -/
def save_all (s : VectorStore) : List FsOp :=
  [ .writeFile index_path (.indexFile s.vectors),
    .writeFile chunks_path (.chunksFile s.chunks),
    .writeFile metadata_path (.metadataFile s.metadata) ]

/-- `VectorStore.add_chunks`.  `now` stands for `datetime.utcnow().isoformat()`.
Returns the updated in-memory state and the file operations `_save_all`
performs; validation failures are the `ValueError`s the code raises. -/
noncomputable def add_chunks (s : VectorStore) (file_id filename : String)
    (chunks : List String) (embeddings : NDArray) (now : String) :
    Except String (VectorStore × List FsOp) :=
  if embeddings.data.length ≠ chunks.length then
    .error "Number of embeddings must match number of chunks"
  else if embeddings.cols ≠ s.dimension then
    .error "Embedding dimension mismatch"
  else
    let normed := embeddings.data.map normalizeL2
    let start_idx := s.chunks.length
    let newChunks := chunks.enum.map (fun p =>
      { id := start_idx + p.1, file_id := file_id, content := p.2,
        chunk_index := p.1, tokens := (pyWords p.2).length : Chunk })
    let md : DocMeta :=
      { filename := filename, upload_date := now,
        num_chunks := chunks.length,
        total_tokens := (chunks.map (fun c => (pyWords c).length)).sum }
    let s' : VectorStore :=
      { s with vectors := s.vectors ++ normed,
               chunks := s.chunks ++ newChunks,
               metadata := upsertDoc s.metadata file_id md }
    .ok (s', save_all s')

/-- `VectorStore._rebuild_index`: a brand new empty `IndexHNSWFlat` is created
and `self.chunks` replaced; the surviving embeddings are never re-added (the
code comments this as a limitation: it would need to re-embed). -/
def rebuild_index (s : VectorStore) (chunks : List Chunk) :
    VectorStore × List FsOp :=
  let s' : VectorStore := { s with vectors := [], chunks := chunks }
  (s', save_all s')

/-- `VectorStore.delete_document`. -/
def delete_document (s : VectorStore) (file_id : String) :
    VectorStore × List FsOp :=
  let remaining := s.chunks.filter (fun c => c.file_id ≠ file_id)
  if remaining.length = s.chunks.length then (s, [])
  else
    let s1 : VectorStore :=
      { s with metadata := s.metadata.filter (fun p => p.1 ≠ file_id) }
    rebuild_index s1 remaining

/-! ## Search -/

/-- One element of the list `VectorStore.search` returns. -/
structure SearchResult where
  content : String
  score : ℝ
  file_id : String
  chunk_index : Nat

/-- Python list indexing `l[i]` including negative indices. -/
def pyGet {α : Type} (l : List α) (i : Int) : Option α :=
  if 0 ≤ i then l.get? i.toNat
  else if (-i).toNat ≤ l.length then l.get? (l.length - (-i).toNat) else none

/-- Python truthiness of the `file_ids` argument (`None` and `[]` are falsy). -/
def fidsTruthy : Option (List String) → Bool
  | none => false
  | some l => !l.isEmpty

/-- The filter `if file_ids and chunk["file_id"] not in file_ids: continue`. -/
def fidsExclude (fids : Option (List String)) (c : Chunk) : Bool :=
  match fids with
  | none => false
  | some l => !l.isEmpty && !(l.contains c.file_id)

/-- The result-building loop of `VectorStore.search` over
`zip(distances[0], indices[0])`: skip `-1`, look the index up in
`self.chunks` (an out-of-range index raises, modelled as `.error`), apply the
`file_ids` filter, convert the distance to `1 - d/2`, and stop as soon as
`top_k` results are collected. -/
noncomputable def searchLoop (chunks : List Chunk) (fids : Option (List String))
    (top_k : Nat) : List (ℝ × Int) → List SearchResult →
    Except String (List SearchResult)
  | [], acc => .ok acc
  | (d, i) :: rest, acc =>
    if i = -1 then searchLoop chunks fids top_k rest acc
    else
      match pyGet chunks i with
      | none => .error "IndexError: list index out of range"
      | some c =>
        if fidsExclude fids c then searchLoop chunks fids top_k rest acc
        else
          let acc' := acc ++ [⟨c.content, 1 - d / 2, c.file_id, c.chunk_index⟩]
          if top_k ≤ acc'.length then .ok acc'
          else searchLoop chunks fids top_k rest acc'

/-- The `k` handed to `self.index.search`:
`k = top_k * 10 if file_ids else top_k; k = min(k, self.index.ntotal)`. -/
def searchK (s : VectorStore) (top_k : Nat) (fids : Option (List String)) : Nat :=
  min (if fidsTruthy fids then top_k * 10 else top_k) s.ntotal

/-- `VectorStore.search`.  `out` stands for `zip(distances[0], indices[0])`
from the FAISS call on the normalized query (see `AnnValid` / `FaissSearchSpec`
for what FAISS guarantees about it). -/
noncomputable def search (s : VectorStore) (q : List ℝ) (top_k : Nat)
    (fids : Option (List String)) (out : List (ℝ × Int)) :
    Except String (List SearchResult) :=
  if s.ntotal = 0 then .ok []
  else searchLoop s.chunks fids top_k out []

/-- What FAISS guarantees about each returned `(distance, index)` pair: the
index is `-1` (missing) or in range, and the distance is the true squared L2
distance between the (normalized) query and the stored vector.  HNSW is
approximate only in WHICH indices it returns, never in the reported
distances. -/
def AnnValid (vectors : List (List ℝ)) (nq : List ℝ)
    (out : List (ℝ × Int)) : Prop :=
  ∀ p ∈ out, p.2 = -1 ∨
    (0 ≤ p.2 ∧ p.2.toNat < vectors.length ∧
      p.1 = sqDist nq (vectors.getD p.2.toNat []))

/-- Full contract of `self.index.search(nq, k)`: `k` pairs, each valid. -/
def FaissSearchSpec (vectors : List (List ℝ)) (nq : List ℝ) (k : Nat)
    (out : List (ℝ × Int)) : Prop :=
  out.length = k ∧ AnnValid vectors nq out

/-- Perfect recall: every distance the ANN returned is no larger than the
distance of every stored vector it did not return (exact k-nearest search
satisfies this). -/
def PerfectRecall (vectors : List (List ℝ)) (nq : List ℝ)
    (out : List (ℝ × Int)) : Prop :=
  ∀ j, j < vectors.length → (∀ p ∈ out, p.2 ≠ (j : Int)) →
    ∀ p ∈ out, p.1 ≤ sqDist nq (vectors.getD j [])

/-- The positional-identity invariant of the store: the chunk list is aligned
with the stored vectors and every chunk's `id` is its position. -/
def StoreWF (s : VectorStore) : Prop :=
  s.chunks.length = s.vectors.length ∧
  ∀ i, i < s.chunks.length → (s.chunks.getD i default).id = i

/-! ## Disk semantics for persistence -/

/-- On-disk content: path to file data. -/
abbrev Disk := List (String × FileData)

/-- Write (create or overwrite in place) a file. -/
def setFile : Disk → String → FileData → Disk
  | [], p, c => [(p, c)]
  | (p', c') :: rest, p, c =>
    if p' = p then (p, c) :: rest else (p', c') :: setFile rest p c

def delFile (d : Disk) (p : String) : Disk := d.filter (fun e => e.1 ≠ p)

def lookupFile (d : Disk) (p : String) : Option FileData :=
  (d.find? (fun e => e.1 = p)).map Prod.snd

/-- Effect of one file-system operation on the disk. -/
def applyOp (d : Disk) : FsOp → Disk
  | .writeFile p c => setFile d p c
  | .writeTemp p c => setFile d (p ++ ".tmp") c
  | .rename src dst =>
    match lookupFile d src with
    | none => d
    | some c => setFile (delFile d src) dst c

/-- Run a list of persistence operations against the disk.  `failAt = some j`
means the disk fails at the `j`-th operation: the operations before `j` have
taken effect and a `PersistenceError` is surfaced to the caller. -/
def persistRun : List FsOp → Option Nat → Disk → Disk × Option String
  | [], _, d => (d, none)
  | _ :: _, some 0, d => (d, some "PersistenceError")
  | op :: rest, f, d =>
    persistRun rest (f.map (fun n => n - 1)) (applyOp d op)

/-- `add_chunks` followed by actually executing its `_save_all` operations
against a (possibly failing) disk.  The code mutates `self` completely before
`_save_all` runs, so the in-memory state component never depends on the disk
outcome. -/
noncomputable def add_chunks_with_disk (s : VectorStore) (d : Disk)
    (file_id filename : String) (chunks : List String) (embeddings : NDArray)
    (now : String) (failAt : Option Nat) :
    Except String (VectorStore × Disk × Option String) :=
  match add_chunks s file_id filename chunks embeddings now with
  | .error e => .error e
  | .ok (s', ops) =>
    let r := persistRun ops failAt d
    .ok (s', r.1, r.2)

/-! ## Chunker (`services/chunking.py`, `TextChunker.chunk_text`) -/

/-- `" ".join(chunk.split())`: collapse all whitespace runs to single spaces. -/
def collapse_ws (s : String) : String := String.intercalate " " (pyWords s)

/-- The hard-coded minimum chunk length of `chunk_text` (in characters). -/
def min_chunk_len : Nat := 50

/-- `TextChunker.chunk_text`, with the output of the external LangChain
`RecursiveCharacterTextSplitter.split_text` call abstracted as `splitOut`
(the splitter returns the input as a single segment whenever it already fits
within `chunk_size`).  Empty or whitespace-only input short-circuits to `[]`;
otherwise every segment is whitespace-collapsed and segments shorter than 50
characters are skipped. -/
def chunk_text_with (text : String) (splitOut : List String) : List String :=
  if isBlank text then []
  else (splitOut.map collapse_ws).filter (fun c => min_chunk_len ≤ c.length)

/-! ## Conversation memory (frontend `ChatContainer.handleSend`,
backend `stream_chat_response`) -/

/-- One chat message (`role` is `"user"`, `"assistant"` or `"system"`). -/
structure ChatMsg where
  role : String
  content : String
deriving DecidableEq, Inhabited

/-- `l[-n:]` in Python / `l.slice(-n)` in JavaScript: the last
`min n l.length` elements. -/
def lastN {α : Type} (n : Nat) (l : List α) : List α := l.drop (l.length - n)

/-- The body of the POST to `/api/chat/stream` built by the frontend.  Note the
`ChatRequest` pydantic schema has exactly these fields: there is no summary
field in the API. -/
structure ChatReq where
  query : String
  history : List ChatMsg
  use_rag : Bool
  file_ids : Option (List String)

/-- `ChatContainer.handleSend`: the request is built from the message list as
captured before the new user message is appended; `history` is
`messages.slice(-10)` and `file_ids` is `[activeFileId]` or `null`. -/
def handleSendReq (messages : List ChatMsg) (content : String)
    (activeFileId : Option String) : ChatReq :=
  { query := content, history := lastN 10 messages, use_rag := true,
    file_ids := activeFileId.map (fun f => [f]) }

/-- The knowledge-bound guardrail system prompt (`services/chat_service.py`;
text abridged, punctuation normalized). -/
def SYSTEM_PROMPT : String :=
  "You are Cosmic AI, a helpful, advanced assistant. Your knowledge is EXCLUSIVELY limited to the provided document context. RULES: 1. ONLY use context to answer. 2. Never use internal training data for document-specific questions. 3. Be professional and maintain the cosmic persona."

/-- `ToonFormatter.format_history`. -/
def format_history (history : List ChatMsg) : String :=
  "\x7brole, content\x7d\n[" ++ toString history.length ++ "]\n" ++
    String.join (history.map (fun m => m.role ++ "\t" ++ m.content ++ "\n"))

/-- `ToonFormatter.format_context`. -/
def format_context (chunks : List SearchResult) : String :=
  "\x7bfile_id, chunk_index, content\x7d\n[" ++ toString chunks.length ++ "]\n" ++
    String.join (chunks.map (fun c =>
      c.file_id ++ "\t" ++ toString c.chunk_index ++ "\t" ++ c.content ++ "\n"))

/-- The message list `stream_chat_response` assembles for generation: system
prompt, then a `PREVIOUS_RECAP` system message iff `current_summary` is truthy,
then a single user message holding the TOON-formatted last 10 history turns,
the RAG context and the query. -/
def stream_chat_messages (query : String) (history : List ChatMsg)
    (current_summary : String) (context_chunks : List SearchResult) :
    List ChatMsg :=
  let base : List ChatMsg := [⟨"system", SYSTEM_PROMPT⟩]
  let base :=
    if current_summary ≠ "" then
      base ++ [⟨"system", "PREVIOUS_RECAP: " ++ current_summary⟩]
    else base
  let payload :=
    (if history ≠ [] then
        ["HISTORY:\n" ++ format_history (lastN 10 history)]
      else []) ++
    (if context_chunks.isEmpty then []
      else ["CONTENT:\n" ++ format_context context_chunks]) ++
    ["QUERY: " ++ query]
  base ++ [⟨"user", String.intercalate "\n\n" payload⟩]

/-- The `/api/chat/stream` endpoint: it forwards `request.query` and
`request.history` to `stream_chat_response` and supplies no
`current_summary` (the call site passes none and the request schema carries
none), modelled as the empty summary. -/
def chat_stream_messages (r : ChatReq) (context_chunks : List SearchResult) :
    List ChatMsg :=
  stream_chat_messages r.query r.history "" context_chunks

/-- `pre` is a prefix of `s` (string prefix test on the character lists). -/
def strIsPref (pre s : String) : Bool := pre.data.isPrefixOf s.data

/-- Whether the assembled generation prompt contains a rolling-summary
(recap) message. -/
def hasRecap (msgs : List ChatMsg) : Bool :=
  msgs.any (fun m => m.role = "system" && strIsPref "PREVIOUS_RECAP: " m.content)

/-! ## Concrete scenario data

1536-dimensional embeddings (the configured `text-embedding-ada-002`
dimension) supported on the first two coordinates, plus the stores the
`VectorStore` operations produce from them. -/

def demo_e1 : List ℝ := 1 :: List.replicate 1535 0
def demo_e2 : List ℝ := 0 :: 1 :: List.replicate 1534 0
def demo_e1neg : List ℝ := (-1) :: List.replicate 1535 0

def demo_embA : NDArray := ⟨1536, [demo_e1]⟩
def demo_embB : NDArray := ⟨1536, [demo_e2]⟩

def demo_chunkA : Chunk := ⟨0, "A", "alpha", 0, 1⟩
def demo_chunkB : Chunk := ⟨1, "B", "bravo", 0, 1⟩
def demo_mdA : DocMeta := ⟨"a.txt", "t1", 1, 1⟩
def demo_mdB : DocMeta := ⟨"b.txt", "t2", 1, 1⟩

/-- The store after `add_chunks` of document "A" (one chunk) on a fresh store. -/
noncomputable def demo_storeA : VectorStore :=
  ⟨1536, [normalizeL2 demo_e1], [demo_chunkA], [("A", demo_mdA)]⟩

/-- The store after further `add_chunks` of document "B" (one chunk). -/
noncomputable def demo_storeAB : VectorStore :=
  ⟨1536, [normalizeL2 demo_e1, normalizeL2 demo_e2], [demo_chunkA, demo_chunkB],
   [("A", demo_mdA), ("B", demo_mdB)]⟩

/-- The store after `delete_document demo_storeAB "A"`. -/
noncomputable def demo_storeDel : VectorStore :=
  ⟨1536, [], [demo_chunkB], [("B", demo_mdB)]⟩

/-- A store holding one chunk whose embedding points opposite to `demo_e1`. -/
noncomputable def demo_storeNeg : VectorStore :=
  ⟨1536, [normalizeL2 demo_e1neg], [⟨0, "N", "november", 0, 1⟩],
   [("N", ⟨"n.txt", "t3", 1, 1⟩)]⟩

/-- Eleven chunks: ten of document "A" (all with embedding `demo_e1`) and one
of document "B" (embedding `demo_e2`). -/
def demo_chunksC : List Chunk :=
  ((List.range 10).map (fun i => ⟨i, "A", "alpha", i, 1⟩)) ++ [⟨10, "B", "bravo", 0, 1⟩]

noncomputable def demo_storeC : VectorStore :=
  ⟨1536, List.replicate 10 (normalizeL2 demo_e1) ++ [normalizeL2 demo_e2],
   demo_chunksC, [("A", ⟨"a.txt", "t1", 10, 10⟩), ("B", demo_mdB)]⟩

/-- The ANN answer of an exact 10-nearest search of `demo_storeC` for query
`demo_e1`: the ten copies of `demo_e1`, each at distance `0`. -/
def demo_out10 : List (ℝ × Int) :=
  (List.range 10).map (fun i => ((0 : ℝ), Int.ofNat i))

/-- Eleven accumulated frontend messages (alternating roles). -/
def demo_msgs11 : List ChatMsg :=
  (List.range 11).map (fun i =>
    ⟨if i % 2 = 0 then "user" else "assistant", toString i⟩)

/-- A 52-character single-word text (longer than `min_chunk_len`). -/
def demo_long_text : String :=
  "abcdefghijklmnopqrstuvwxyzabcdefghijklmnopqrstuvwxyz"

/-! ## Helper lemmas: vector arithmetic -/

theorem sqNorm_nil : sqNorm [] = 0 := rfl

theorem sqNorm_cons (x : ℝ) (t : List ℝ) :
    sqNorm (x :: t) = x * x + sqNorm t := by
  simp [sqNorm]

theorem sqNorm_nonneg (v : List ℝ) : 0 ≤ sqNorm v := by
  induction v with
  | nil => simp [sqNorm]
  | cons x t ih => rw [sqNorm_cons]; nlinarith [mul_self_nonneg x]

theorem sqNorm_replicate_zero (n : Nat) :
    sqNorm (List.replicate n (0 : ℝ)) = 0 := by
  induction n with
  | zero => rfl
  | succ n ih => rw [List.replicate_succ, sqNorm_cons, ih]; ring

theorem sqDist_nil_left (b : List ℝ) : sqDist [] b = 0 := rfl

theorem sqDist_nil_right (a : List ℝ) : sqDist a [] = 0 := by
  cases a <;> rfl

theorem sqDist_cons (x y : ℝ) (a b : List ℝ) :
    sqDist (x :: a) (y :: b) = (x - y) * (x - y) + sqDist a b := by
  simp [sqDist]

theorem sqDist_self (v : List ℝ) : sqDist v v = 0 := by
  induction v with
  | nil => rfl
  | cons x t ih => rw [sqDist_cons, ih]; ring

theorem sqDist_nonneg (a : List ℝ) : ∀ b, 0 ≤ sqDist a b := by
  induction a with
  | nil => intro b; rw [sqDist_nil_left]
  | cons x t ih =>
    intro b
    cases b with
    | nil => rw [sqDist_nil_right]
    | cons y u =>
      rw [sqDist_cons]
      have h1 := ih u
      nlinarith [mul_self_nonneg (x - y)]

theorem sqDist_le_two_two (a : List ℝ) :
    ∀ b, sqDist a b ≤ 2 * sqNorm a + 2 * sqNorm b := by
  induction a with
  | nil =>
    intro b
    rw [sqDist_nil_left, sqNorm_nil]
    have := sqNorm_nonneg b
    linarith
  | cons x t ih =>
    intro b
    cases b with
    | nil =>
      rw [sqDist_nil_right, sqNorm_nil]
      have := sqNorm_nonneg (x :: t)
      linarith
    | cons y u =>
      rw [sqDist_cons, sqNorm_cons, sqNorm_cons]
      have h1 := ih u
      nlinarith [sq_nonneg (x + y)]

theorem dotp_cons (x y : ℝ) (a b : List ℝ) :
    dotp (x :: a) (y :: b) = x * y + dotp a b := by
  simp [dotp]

theorem sqDist_eq_norms (a : List ℝ) :
    ∀ b, a.length = b.length →
      sqDist a b = sqNorm a + sqNorm b - 2 * dotp a b := by
  induction a with
  | nil =>
    intro b hb
    cases b with
    | nil => simp [sqDist, sqNorm, dotp]
    | cons y u => simp at hb
  | cons x t ih =>
    intro b hb
    cases b with
    | nil => simp at hb
    | cons y u =>
      have hlen : t.length = u.length := by simpa using hb
      rw [sqDist_cons, sqNorm_cons, sqNorm_cons, dotp_cons, ih u hlen]
      ring

theorem dotp_map_div (c e : ℝ) (a : List ℝ) :
    ∀ b, dotp (a.map (fun x => x / c)) (b.map (fun y => y / e)) =
      dotp a b / (c * e) := by
  induction a with
  | nil => intro b; simp [dotp]
  | cons x t ih =>
    intro b
    cases b with
    | nil => simp [dotp]
    | cons y u =>
      simp only [List.map_cons, dotp_cons, ih u]
      rw [div_mul_div_comm, div_add_div_same]

theorem sqNorm_map_div (c : ℝ) (v : List ℝ) :
    sqNorm (v.map (fun x => x / c)) = sqNorm v / (c * c) := by
  induction v with
  | nil => simp [sqNorm]
  | cons x t ih =>
    simp only [List.map_cons, sqNorm_cons, ih]
    rw [div_mul_div_comm, div_add_div_same]

theorem normalizeL2_length (v : List ℝ) : (normalizeL2 v).length = v.length := by
  simp [normalizeL2]

theorem sqNorm_normalizeL2 (v : List ℝ) (h : 0 < sqNorm v) :
    sqNorm (normalizeL2 v) = 1 := by
  rw [normalizeL2, sqNorm_map_div, Real.mul_self_sqrt (le_of_lt h),
    div_self (ne_of_gt h)]

theorem normalizeL2_of_unit (v : List ℝ) (h : sqNorm v = 1) :
    normalizeL2 v = v := by
  rw [normalizeL2, h, Real.sqrt_one]
  simp

theorem score_eq_cosine (q v : List ℝ) (hq : 0 < sqNorm q) (hv : 0 < sqNorm v)
    (hl : q.length = v.length) :
    1 - sqDist (normalizeL2 q) (normalizeL2 v) / 2 = cosineSim q v := by
  have hlen : (normalizeL2 q).length = (normalizeL2 v).length := by
    rw [normalizeL2_length, normalizeL2_length, hl]
  have hdot : dotp (normalizeL2 q) (normalizeL2 v) =
      dotp q v / (Real.sqrt (sqNorm q) * Real.sqrt (sqNorm v)) := by
    rw [normalizeL2, normalizeL2, dotp_map_div]
  rw [sqDist_eq_norms _ _ hlen, sqNorm_normalizeL2 q hq, sqNorm_normalizeL2 v hv,
    hdot, cosineSim]
  ring

/-! ## Helper lemmas: the demo embeddings -/

theorem sqNorm_demo_e1 : sqNorm demo_e1 = 1 := by
  rw [demo_e1, sqNorm_cons, sqNorm_replicate_zero]; ring

theorem sqNorm_demo_e2 : sqNorm demo_e2 = 1 := by
  rw [demo_e2, sqNorm_cons, sqNorm_cons, sqNorm_replicate_zero]; ring

theorem sqNorm_demo_e1neg : sqNorm demo_e1neg = 1 := by
  rw [demo_e1neg, sqNorm_cons, sqNorm_replicate_zero]; ring

theorem normalize_demo_e1 : normalizeL2 demo_e1 = demo_e1 :=
  normalizeL2_of_unit _ sqNorm_demo_e1

theorem normalize_demo_e2 : normalizeL2 demo_e2 = demo_e2 :=
  normalizeL2_of_unit _ sqNorm_demo_e2

theorem normalize_demo_e1neg : normalizeL2 demo_e1neg = demo_e1neg :=
  normalizeL2_of_unit _ sqNorm_demo_e1neg

theorem demo_e1_expand : demo_e1 = 1 :: 0 :: List.replicate 1534 0 := rfl

theorem demo_e1_length : demo_e1.length = 1536 := by
  rw [demo_e1, List.length_cons, List.length_replicate]

theorem demo_e2_length : demo_e2.length = 1536 := by
  rw [demo_e2, List.length_cons, List.length_cons, List.length_replicate]

theorem sqDist_demo_e1_e2 : sqDist demo_e1 demo_e2 = 2 := by
  rw [demo_e1_expand, demo_e2, sqDist_cons, sqDist_cons, sqDist_self]; ring

theorem sqDist_demo_e1_e1neg : sqDist demo_e1 demo_e1neg = 4 := by
  rw [demo_e1, demo_e1neg, sqDist_cons, sqDist_self]; ring

/-! ## Helper lemmas: search -/

/-- Every result the search loop produces (beyond the accumulator) is built
from some non-`-1` pair of the ANN answer by the `1 - d/2` conversion. -/
theorem searchLoop_mem (chunks : List Chunk) (fids : Option (List String))
    (tk : Nat) :
    ∀ (pairs : List (ℝ × Int)) (acc res : List SearchResult),
      searchLoop chunks fids tk pairs acc = .ok res →
      ∀ r ∈ res, r ∈ acc ∨
        ∃ d i c, (d, i) ∈ pairs ∧ i ≠ -1 ∧ pyGet chunks i = some c ∧
          r = ⟨c.content, 1 - d / 2, c.file_id, c.chunk_index⟩ := by
  intro pairs
  induction pairs with
  | nil =>
    intro acc res h r hr
    simp only [searchLoop, Except.ok.injEq] at h
    exact Or.inl (h ▸ hr)
  | cons p rest ih =>
    intro acc res h r hr
    obtain ⟨d, i⟩ := p
    simp only [searchLoop] at h
    by_cases hi : i = -1
    · rw [if_pos hi] at h
      rcases ih acc res h r hr with hl | ⟨d', i', c', hm, hne, hg, he⟩
      · exact Or.inl hl
      · exact Or.inr ⟨d', i', c', List.mem_cons_of_mem _ hm, hne, hg, he⟩
    · rw [if_neg hi] at h
      cases hg : pyGet chunks i with
      | none => rw [hg] at h; simp at h
      | some c =>
        rw [hg] at h
        dsimp only at h
        by_cases hf : fidsExclude fids c = true
        · rw [if_pos hf] at h
          rcases ih acc res h r hr with hl | ⟨d', i', c', hm, hne, hg', he⟩
          · exact Or.inl hl
          · exact Or.inr ⟨d', i', c', List.mem_cons_of_mem _ hm, hne, hg', he⟩
        · rw [if_neg hf] at h
          by_cases hk : tk ≤ (acc ++ [(⟨c.content, 1 - d / 2, c.file_id,
              c.chunk_index⟩ : SearchResult)]).length
          · rw [if_pos hk] at h
            simp only [Except.ok.injEq] at h
            rcases List.mem_append.mp (h ▸ hr) with hl | hr1
            · exact Or.inl hl
            · refine Or.inr ⟨d, i, c, List.mem_cons_self _ _, hi, hg, ?_⟩
              simpa using hr1
          · rw [if_neg hk] at h
            rcases ih _ res h r hr with hl | ⟨d', i', c', hm, hne, hg', he⟩
            · rcases List.mem_append.mp hl with hl2 | hr1
              · exact Or.inl hl2
              · refine Or.inr ⟨d, i, c, List.mem_cons_self _ _, hi, hg, ?_⟩
                simpa using hr1
            · exact Or.inr ⟨d', i', c', List.mem_cons_of_mem _ hm, hne, hg', he⟩

/-- Lift of `searchLoop_mem` to `search`. -/
theorem search_mem (s : VectorStore) (q : List ℝ) (tk : Nat)
    (fids : Option (List String)) (out : List (ℝ × Int))
    (res : List SearchResult) (h : search s q tk fids out = .ok res) :
    ∀ r ∈ res, ∃ d i c, (d, i) ∈ out ∧ i ≠ -1 ∧ pyGet s.chunks i = some c ∧
      r = ⟨c.content, 1 - d / 2, c.file_id, c.chunk_index⟩ := by
  intro r hr
  rw [search] at h
  by_cases h0 : s.ntotal = 0
  · rw [if_pos h0] at h
    simp only [Except.ok.injEq] at h
    rw [← h] at hr
    simp at hr
  · rw [if_neg h0] at h
    rcases searchLoop_mem s.chunks fids tk out [] res h r hr with hl | hex
    · simp at hl
    · exact hex

/-- Unpack `AnnValid` for a pair known not to be `-1`. -/
theorem annValid_dist (vectors : List (List ℝ)) (nq : List ℝ)
    (out : List (ℝ × Int)) (hann : AnnValid vectors nq out)
    (d : ℝ) (i : Int) (hmem : (d, i) ∈ out) (hne : i ≠ -1) :
    0 ≤ i ∧ i.toNat < vectors.length ∧
      d = sqDist nq (vectors.getD i.toNat []) := by
  rcases hann _ hmem with h | h
  · exact absurd h hne
  · exact h

theorem getD_mem_of_lt {α : Type} (l : List α) (i : Nat) (d : α)
    (h : i < l.length) : l.getD i d ∈ l := by
  rw [List.getD_eq_getElem l d h]
  exact List.getElem_mem h

/-! ## Helper lemmas: store operations -/

/-- Anatomy of a successful `add_chunks` call. -/
theorem add_chunks_ok (s : VectorStore) (fid fn : String) (cs : List String)
    (emb : NDArray) (now : String) (s' : VectorStore) (ops : List FsOp)
    (h : add_chunks s fid fn cs emb now = .ok (s', ops)) :
    emb.data.length = cs.length ∧ emb.cols = s.dimension ∧
    s'.dimension = s.dimension ∧
    s'.vectors = s.vectors ++ emb.data.map normalizeL2 ∧
    s'.chunks = s.chunks ++ cs.enum.map (fun p =>
      ⟨s.chunks.length + p.1, fid, p.2, p.1, (pyWords p.2).length⟩) ∧
    ops = save_all s' := by
  rw [add_chunks] at h
  split at h
  · simp at h
  next h1 =>
    split at h
    · simp at h
    next h2 =>
      simp only [Except.ok.injEq, Prod.mk.injEq] at h
      obtain ⟨hs, hops⟩ := h
      refine ⟨not_not.mp h1, not_not.mp h2, ?_, ?_, ?_, ?_⟩
      · rw [← hs]
      · rw [← hs]
      · rw [← hs]
      · rw [← hs, ← hops]

/-- `add_chunks` preserves the positional-identity invariant. -/
theorem add_chunks_preserves_wf (s : VectorStore) (fid fn : String)
    (cs : List String) (emb : NDArray) (now : String) (s' : VectorStore)
    (ops : List FsOp) (h : add_chunks s fid fn cs emb now = .ok (s', ops))
    (hwf : StoreWF s) : StoreWF s' := by
  obtain ⟨hlen, _, _, hvec, hchunks, _⟩ := add_chunks_ok s fid fn cs emb now s' ops h
  constructor
  · rw [hvec, hchunks]
    simp only [List.length_append, List.length_map, List.enum_length]
    rw [hwf.1, hlen]
  · intro i hi
    rw [hchunks] at hi ⊢
    by_cases hlt : i < s.chunks.length
    · rw [List.getD_append _ _ _ _ hlt]
      exact hwf.2 i hlt
    · push_neg at hlt
      rw [List.getD_append_right _ _ _ _ hlt]
      have hj : i - s.chunks.length < cs.length := by
        simp only [List.length_append, List.length_map, List.enum_length] at hi
        omega
      have hj' : i - s.chunks.length <
          (cs.enum.map (fun p =>
            (⟨s.chunks.length + p.1, fid, p.2, p.1, (pyWords p.2).length⟩ :
              Chunk))).length := by
        simp only [List.length_map, List.enum_length]
        exact hj
      rw [List.getD_eq_getElem _ _ hj']
      simp only [List.getElem_map, List.getElem_enum]
      omega

/-- A disk failure anywhere inside the operation list is surfaced. -/
theorem persistRun_fail (ops : List FsOp) :
    ∀ (j : Nat) (d : Disk), j < ops.length →
      (persistRun ops (some j) d).2 = some "PersistenceError" := by
  induction ops with
  | nil => intro j d h; simp at h
  | cons op rest ih =>
    intro j d h
    cases j with
    | zero => rfl
    | succ j =>
      have e : persistRun (op :: rest) (some (j + 1)) d =
          persistRun rest (some j) (applyOp d op) := rfl
      rw [e]
      exact ih j (applyOp d op) (by simp at h; omega)

/-! ## Helper lemmas: chat memory -/

theorem lastN_length {α : Type} (n : Nat) (l : List α) :
    (lastN n l).length = min l.length n := by
  simp only [lastN, List.length_drop]
  omega

/-- With an empty `current_summary` (what the implemented endpoint always
passes), the assembled generation prompt contains no recap message. -/
theorem hasRecap_stream_empty (q : String) (hist : List ChatMsg)
    (ctx : List SearchResult) :
    hasRecap (stream_chat_messages q hist "" ctx) = false := by
  have h1 : strIsPref "PREVIOUS_RECAP: " SYSTEM_PROMPT = false := by decide
  simp only [hasRecap, stream_chat_messages, ne_eq, not_true_eq_false, if_false,
    List.any_append, List.any_cons, List.any_nil, h1]
  simp

/-! ## Helper lemmas: the demo scenario, evaluated through the code -/

theorem demo_addA_eq :
    add_chunks init_store "A" "a.txt" ["alpha"] demo_embA "t1" =
      .ok (demo_storeA, save_all demo_storeA) := rfl

theorem demo_addB_eq :
    add_chunks demo_storeA "B" "b.txt" ["bravo"] demo_embB "t2" =
      .ok (demo_storeAB, save_all demo_storeAB) := rfl

theorem demo_delete_eq :
    delete_document demo_storeAB "A" = (demo_storeDel, save_all demo_storeDel) :=
  rfl

theorem demo_search_pre_eq :
    search demo_storeAB demo_e2 1 none [(0, 1)] =
      .ok [⟨"bravo", 1 - 0 / 2, "B", 0⟩] := rfl

theorem demo_search_neg_eq :
    search demo_storeNeg demo_e1 1 none [(4, 0)] =
      .ok [⟨"november", 1 - 4 / 2, "N", 0⟩] := rfl

theorem demo_search_c10_eq :
    search demo_storeC demo_e1 1 (some ["B"]) demo_out10 = .ok [] := rfl

theorem demo_annAB :
    AnnValid demo_storeAB.vectors (normalizeL2 demo_e2) [(0, 1)] := by
  intro p hp
  simp only [List.mem_singleton] at hp
  subst hp
  right
  refine ⟨by norm_num, by simp [demo_storeAB], ?_⟩
  have hget : demo_storeAB.vectors.getD (1 : Int).toNat [] = normalizeL2 demo_e2 := by
    simp [demo_storeAB]
  rw [hget, sqDist_self]

theorem demo_annNeg :
    AnnValid demo_storeNeg.vectors (normalizeL2 demo_e1) [(4, 0)] := by
  intro p hp
  simp only [List.mem_singleton] at hp
  subst hp
  right
  refine ⟨by norm_num, by simp [demo_storeNeg], ?_⟩
  have hget : demo_storeNeg.vectors.getD (0 : Int).toNat [] = normalizeL2 demo_e1neg := by
    simp [demo_storeNeg]
  rw [hget, normalize_demo_e1, normalize_demo_e1neg, sqDist_demo_e1_e1neg]

theorem demo_out10_mem (p : ℝ × Int) (hp : p ∈ demo_out10) :
    ∃ i : Nat, i < 10 ∧ p = ((0 : ℝ), Int.ofNat i) := by
  rw [demo_out10] at hp
  rcases List.mem_map.mp hp with ⟨a, ha, rfl⟩
  exact ⟨a, List.mem_range.mp ha, rfl⟩

theorem demo_specC :
    FaissSearchSpec demo_storeC.vectors (normalizeL2 demo_e1) 10 demo_out10 := by
  constructor
  · rw [demo_out10, List.length_map, List.length_range]
  · intro p hp
    obtain ⟨i, hi, rfl⟩ := demo_out10_mem p hp
    right
    have hlen : demo_storeC.vectors.length = 11 := by
      simp [demo_storeC]
    have htn : (Int.ofNat i).toNat = i := rfl
    refine ⟨Int.ofNat_nonneg i, ?_, ?_⟩
    · show (Int.ofNat i).toNat < demo_storeC.vectors.length
      rw [hlen, htn]; omega
    · show (0 : ℝ) = sqDist (normalizeL2 demo_e1)
        (demo_storeC.vectors.getD (Int.ofNat i).toNat [])
      have hrep : i < (List.replicate 10 (normalizeL2 demo_e1)).length := by
        simpa using hi
      have hget : demo_storeC.vectors.getD (Int.ofNat i).toNat [] =
          normalizeL2 demo_e1 := by
        rw [htn]
        show (List.replicate 10 (normalizeL2 demo_e1) ++
          [normalizeL2 demo_e2]).getD i [] = normalizeL2 demo_e1
        rw [List.getD_append _ _ _ _ hrep, List.getD_eq_getElem _ _ hrep]
        exact List.getElem_replicate ..
      rw [hget, sqDist_self]

theorem demo_prC :
    PerfectRecall demo_storeC.vectors (normalizeL2 demo_e1) demo_out10 := by
  intro j hj hnot p hp
  obtain ⟨i, hi, rfl⟩ := demo_out10_mem p hp
  exact sqDist_nonneg _ _

theorem storeWF_demo_storeA : StoreWF demo_storeA := by
  constructor
  · rfl
  · decide

theorem storeWF_init : StoreWF init_store := by
  constructor
  · rfl
  · intro i hi
    simp [init_store] at hi

/-! ## Claim theorems -/

/-- Claim C1: the claim says that after `delete_document D` (tombstone plus
rebuild) no search result belongs to `D` while results for unaffected
documents are unchanged.  The code violates the second half: `_rebuild_index`
installs a fresh empty FAISS index and never re-inserts the surviving
embeddings, so after deleting document "A" every search returns the empty
list — the chunk of untouched document "B", which a pre-delete search for its
own embedding returned with score 1, is no longer returned for any query, any
`top_k`, any filter and any ANN answer. -/
theorem delete_document_rebuild_loses_unaffected_results :
    search demo_storeAB demo_e2 1 none [(0, 1)] =
      .ok [⟨"bravo", 1 - 0 / 2, "B", 0⟩] ∧
    (1 - (0 : ℝ) / 2 = 1) ∧
    FaissSearchSpec demo_storeAB.vectors (normalizeL2 demo_e2) 1 [(0, 1)] ∧
    delete_document demo_storeAB "A" = (demo_storeDel, save_all demo_storeDel) ∧
    demo_storeDel.chunks = [demo_chunkB] ∧
    demo_storeDel.vectors = [] ∧
    (∀ (q : List ℝ) (top_k : Nat) (fids : Option (List String))
      (out : List (ℝ × Int)),
      search demo_storeDel q top_k fids out = .ok []) := by
  refine ⟨demo_search_pre_eq, by norm_num, ⟨rfl, demo_annAB⟩, demo_delete_eq,
    rfl, rfl, ?_⟩
  intro q top_k fids out
  rfl

/-- Claim C2: the claim says every chunk's `id` equals its position in the
vector index and that this is preserved by every operation.  `add_chunks`
does preserve it (both demo stores are well-formed), but
`delete_document` breaks it: after deleting document "A", the surviving chunk
of "B" keeps `id = 1` while sitting at position 0, and the rebuilt index holds
0 vectors against 1 chunk. -/
theorem chunk_ids_not_positional_after_delete :
    add_chunks init_store "A" "a.txt" ["alpha"] demo_embA "t1" =
      .ok (demo_storeA, save_all demo_storeA) ∧
    add_chunks demo_storeA "B" "b.txt" ["bravo"] demo_embB "t2" =
      .ok (demo_storeAB, save_all demo_storeAB) ∧
    StoreWF demo_storeA ∧ StoreWF demo_storeAB ∧
    delete_document demo_storeAB "A" = (demo_storeDel, save_all demo_storeDel) ∧
    demo_storeDel.chunks.map Chunk.id = [1] ∧
    demo_storeDel.ntotal = 0 ∧
    ¬ StoreWF demo_storeDel := by
  refine ⟨demo_addA_eq, demo_addB_eq, storeWF_demo_storeA, ?_, demo_delete_eq,
    rfl, rfl, fun h => ?_⟩
  · constructor
    · rfl
    · decide
  · have h1 := h.1
    simp [demo_storeDel, demo_chunkB] at h1

/-- Claim C3 (counterexample): the claim says persistence writes each file by
writing a temporary file and atomically renaming it.  `_save_all` in fact
performs three direct in-place writes of the final paths. -/
theorem save_all_direct_write_counterexample :
    save_all init_store =
      [FsOp.writeFile index_path (.indexFile []),
       FsOp.writeFile chunks_path (.chunksFile []),
       FsOp.writeFile metadata_path (.metadataFile [])] ∧
    isDirectWrite (FsOp.writeFile index_path (.indexFile [])) = true ∧
    ¬ (∀ op ∈ save_all init_store, isDirectWrite op = false) := by
  refine ⟨rfl, rfl, fun h => ?_⟩
  have hm : FsOp.writeFile index_path (.indexFile []) ∈ save_all init_store :=
    List.mem_cons_self _ _
  have := h _ hm
  simp [isDirectWrite] at this

/-- Claim C3 (amended): a disk-write failure during `add_chunks` is surfaced
to the caller while the in-memory state is already fully mutated (independent
of where the failure happens) and still satisfies the store invariant; but the
writes are direct in-place writes of the final files, not
write-to-temp-then-atomic-rename. -/
theorem persistence_surfaced_and_memory_valid :
    (∀ (s : VectorStore) (op : FsOp), op ∈ save_all s →
      isDirectWrite op = true) ∧
    (∀ (s : VectorStore) (d : Disk) (fid fn : String) (cs : List String)
      (emb : NDArray) (now : String) (failAt : Option Nat)
      (s' : VectorStore) (d' : Disk) (err : Option String),
      add_chunks_with_disk s d fid fn cs emb now failAt = .ok (s', d', err) →
      (StoreWF s → StoreWF s') ∧
      add_chunks s fid fn cs emb now = .ok (s', save_all s') ∧
      (∀ j, failAt = some j → j < (save_all s').length →
        err = some "PersistenceError")) := by
  constructor
  · intro s op hop
    rw [save_all] at hop
    simp only [List.mem_cons, List.not_mem_nil, or_false] at hop
    rcases hop with rfl | rfl | rfl <;> rfl
  · intro s d fid fn cs emb now failAt s' d' err h
    rw [add_chunks_with_disk] at h
    cases heq : add_chunks s fid fn cs emb now with
    | error e => rw [heq] at h; simp at h
    | ok p =>
      obtain ⟨s0, ops⟩ := p
      rw [heq] at h
      simp only [Except.ok.injEq, Prod.mk.injEq] at h
      obtain ⟨hs, hd, herr⟩ := h
      have hops : ops = save_all s0 :=
        (add_chunks_ok s fid fn cs emb now s0 ops heq).2.2.2.2.2
      subst hs
      refine ⟨fun hwf => add_chunks_preserves_wf s fid fn cs emb now s0 ops heq hwf,
        by rw [hops], ?_⟩
      intro j hj hlt
      rw [← herr, hj, hops]
      exact persistRun_fail (save_all s0) j d hlt

/-- Witness for the amended claim C3, at a concrete ingest whose first disk
write fails. -/
theorem persistence_surfaced_witness :
    StoreWF demo_storeA ∧
    isDirectWrite (FsOp.writeFile index_path (.indexFile init_store.vectors)) =
      true ∧
    (Except.ok (demo_storeA, save_all demo_storeA) :
      Except String (VectorStore × List FsOp)) =
      .ok (demo_storeA, save_all demo_storeA) := by
  have h := persistence_surfaced_and_memory_valid
  have h2 := h.2 init_store [] "A" "a.txt" ["alpha"] demo_embA "t1" (some 0)
    demo_storeA [] (some "PersistenceError") rfl
  exact ⟨h2.1 storeWF_init,
    h.1 init_store _ (List.mem_cons_self _ _),
    by rw [← h2.2.1, demo_addA_eq]⟩

/-- Claim C4: the claim says `add_chunks` raises a validation error exactly
when the embedding dimension differs from the configured dimension, and never
otherwise.  In fact the code raises in exactly two cases: a row-count/chunk
mismatch or a dimension mismatch (amended claim). -/
theorem add_chunks_error_iff (s : VectorStore) (fid fn : String)
    (cs : List String) (emb : NDArray) (now : String) :
    (∃ e, add_chunks s fid fn cs emb now = .error e) ↔
      emb.data.length ≠ cs.length ∨ emb.cols ≠ s.dimension := by
  rw [add_chunks]
  by_cases h1 : emb.data.length ≠ cs.length
  · rw [if_pos h1]
    simp [h1]
  · rw [if_neg h1]
    by_cases h2 : emb.cols ≠ s.dimension
    · rw [if_pos h2]
      simp [h1, h2]
    · rw [if_neg h2]
      simp [h1, h2]

/-- Witness for the amended claim C4 at a concrete mismatched call. -/
theorem add_chunks_error_iff_witness :
    ∃ e, add_chunks init_store "X" "x.txt" ["a", "b"] demo_embA "t" =
      .error e :=
  (add_chunks_error_iff init_store "X" "x.txt" ["a", "b"] demo_embA "t").mpr
    (Or.inl (by decide))

/-- Claim C4 (counterexample): a call whose embedding dimension matches the
configured 1536 but whose row count differs from the chunk count raises — so
dimension mismatch is not the only validation failure. -/
theorem add_chunks_count_mismatch_counterexample :
    add_chunks init_store "X" "x.txt" ["a", "b"] demo_embA "t" =
      .error "Number of embeddings must match number of chunks" ∧
    demo_embA.cols = init_store.dimension ∧
    demo_embA.data.length = 1 ∧ (["a", "b"] : List String).length = 2 :=
  ⟨rfl, rfl, rfl, rfl⟩

/-- Claim C5 (counterexample): the claim says every returned similarity score
lies in `[0,1]`.  Querying a store holding the opposite of the query vector
returns score `1 - 4/2 = -1`. -/
theorem search_score_out_of_range_counterexample :
    FaissSearchSpec demo_storeNeg.vectors (normalizeL2 demo_e1) 1 [(4, 0)] ∧
    search demo_storeNeg demo_e1 1 none [(4, 0)] =
      .ok [⟨"november", 1 - 4 / 2, "N", 0⟩] ∧
    (1 - (4 : ℝ) / 2 = -1) ∧
    ¬ (0 ≤ 1 - (4 : ℝ) / 2 ∧ 1 - (4 : ℝ) / 2 ≤ 1) := by
  refine ⟨⟨rfl, demo_annNeg⟩, demo_search_neg_eq, by norm_num, ?_⟩
  intro hc
  have := hc.1
  norm_num at this

/-- Claim C5 (amended): for unit-norm stored vectors and a unit-norm
normalized query, every score `search` returns lies in the cosine range
`[-1, 1]`. -/
theorem search_scores_cosine_range (s : VectorStore) (q : List ℝ)
    (top_k : Nat) (fids : Option (List String)) (out : List (ℝ × Int))
    (res : List SearchResult)
    (hvec : ∀ v ∈ s.vectors, sqNorm v = 1)
    (hq : sqNorm (normalizeL2 q) = 1)
    (hann : AnnValid s.vectors (normalizeL2 q) out)
    (hrun : search s q top_k fids out = .ok res) :
    ∀ r ∈ res, -1 ≤ r.score ∧ r.score ≤ 1 := by
  intro r hr
  obtain ⟨d, i, c, hmem, hne, hg, he⟩ :=
    search_mem s q top_k fids out res hrun r hr
  obtain ⟨hpos, hlt, hd⟩ :=
    annValid_dist s.vectors (normalizeL2 q) out hann d i hmem hne
  have hv := hvec _ (getD_mem_of_lt s.vectors i.toNat [] hlt)
  have h0 : 0 ≤ d := by
    rw [hd]
    exact sqDist_nonneg _ _
  have h4 : d ≤ 4 := by
    have hb := sqDist_le_two_two (normalizeL2 q) (s.vectors.getD i.toNat [])
    rw [hq, hv] at hb
    rw [hd]
    linarith
  have hs : r.score = 1 - d / 2 := by rw [he]
  rw [hs]
  constructor <;> linarith

/-- Witness for the amended claim C5 at the concrete opposite-vector store:
the returned score `-1` does lie in `[-1, 1]`. -/
theorem search_scores_cosine_range_witness :
    -1 ≤ (⟨"november", 1 - 4 / 2, "N", 0⟩ : SearchResult).score ∧
    (⟨"november", 1 - 4 / 2, "N", 0⟩ : SearchResult).score ≤ 1 := by
  have hvec : ∀ v ∈ demo_storeNeg.vectors, sqNorm v = 1 := by
    intro v hv
    have : v = normalizeL2 demo_e1neg := by
      simpa [demo_storeNeg] using hv
    rw [this, normalize_demo_e1neg, sqNorm_demo_e1neg]
  have hq : sqNorm (normalizeL2 demo_e1) = 1 := by
    rw [normalize_demo_e1, sqNorm_demo_e1]
  exact search_scores_cosine_range demo_storeNeg demo_e1 1 none [(4, 0)]
    [⟨"november", 1 - 4 / 2, "N", 0⟩] hvec hq demo_annNeg demo_search_neg_eq
    _ (List.mem_singleton.mpr rfl)

/-- Claim C6 (counterexample): the claim says the rolling summary is non-empty
iff the turn count exceeds 10.  With eleven accumulated messages the request
the frontend builds carries `query`, `history`, `use_rag` and `file_ids` only
(the `ChatRequest` schema has no summary field and the endpoint passes no
`current_summary`), so the generation prompt contains no recap message at
all. -/
theorem summary_absent_after_eleven_messages :
    demo_msgs11.length = 11 ∧
    (handleSendReq demo_msgs11 "next question" none).history.length = 10 ∧
    hasRecap (chat_stream_messages
      (handleSendReq demo_msgs11 "next question" none) []) = false := by
  refine ⟨by decide, by decide, ?_⟩
  exact hasRecap_stream_empty _ _ _

/-- Claim C6 (amended): the verbatim turn list supplied to generation has
length `min N 10`, both in the request the frontend builds and after the
backend re-slices it; the generation prompt contains a recap message exactly
when the caller passes a non-empty `current_summary`, and the implemented
endpoint (whose request schema carries no summary) always passes the empty
one, so the prompt never contains a recap, whatever the turn count. -/
theorem memory_window_amended :
    (∀ (msgs : List ChatMsg) (content : String) (afid : Option String),
      (handleSendReq msgs content afid).history.length = min msgs.length 10) ∧
    (∀ (msgs : List ChatMsg) (content : String) (afid : Option String),
      (lastN 10 (handleSendReq msgs content afid).history).length =
        min msgs.length 10) ∧
    (∀ (r : ChatReq) (ctx : List SearchResult),
      hasRecap (chat_stream_messages r ctx) = false) ∧
    (∀ (q : String) (hist : List ChatMsg) (summ : String)
      (ctx : List SearchResult), summ ≠ "" →
      (⟨"system", "PREVIOUS_RECAP: " ++ summ⟩ : ChatMsg) ∈
        stream_chat_messages q hist summ ctx) := by
  refine ⟨?_, ?_, ?_, ?_⟩
  · intro msgs content afid
    show (lastN 10 msgs).length = min msgs.length 10
    rw [lastN_length]
  · intro msgs content afid
    show (lastN 10 (lastN 10 msgs)).length = min msgs.length 10
    rw [lastN_length, lastN_length]
    omega
  · intro r ctx
    exact hasRecap_stream_empty r.query r.history ctx
  · intro q hist summ ctx hs
    rw [stream_chat_messages]
    simp only [if_pos hs]
    simp

/-- Witness for the amended claim C6 at a concrete non-empty summary. -/
theorem memory_window_amended_witness :
    (⟨"system", "PREVIOUS_RECAP: " ++ "earlier recap"⟩ : ChatMsg) ∈
      stream_chat_messages "q" [] "earlier recap" [] := by
  exact memory_window_amended.2.2.2 "q" [] "earlier recap" [] (by decide)

/-- Claim C7 (counterexample): the claim says the chunker never loses a
document's content entirely.  For the 11-character non-blank input
`"Short text."` (which the splitter returns as a single segment), every
segment is dropped by the 50-character minimum and the result is empty. -/
theorem chunker_loses_short_document :
    isBlank "Short text." = false ∧
    ("Short text." : String).length = 11 ∧
    chunk_text_with "Short text." ["Short text."] = [] := by
  refine ⟨by decide, by decide, by decide⟩

/-- Claim C7 (amended): every chunk `chunk_text` returns has length at least
50 — undersized segments are dropped unconditionally, with no
keep-the-only-chunk exception, so a short document's content can be lost
entirely (as the concrete conjunct shows). -/
theorem chunker_drops_small_chunks_amended :
    (∀ (text : String) (spl : List String) (c : String),
      c ∈ chunk_text_with text spl → min_chunk_len ≤ c.length) ∧
    isBlank "Short text." = false ∧
    chunk_text_with "Short text." ["Short text."] = [] := by
  refine ⟨?_, by decide, by decide⟩
  intro text spl c hc
  rw [chunk_text_with] at hc
  split at hc
  · simp at hc
  · simpa using (List.mem_filter.mp hc).2

/-- Witness for the amended claim C7 at a 52-character single-word text. -/
theorem chunker_drops_small_chunks_witness :
    min_chunk_len ≤ demo_long_text.length := by
  exact chunker_drops_small_chunks_amended.1 demo_long_text [demo_long_text]
    demo_long_text (by decide)

/-- Claim C8: embeddings are L2-normalized at insertion (`add_chunks` stores
exactly the normalized rows, which are unit vectors), the query is normalized
at search time, every returned score is `1 - d²/2` for `d²` the true squared
L2 distance between the normalized query and a stored vector, and on
normalized vectors that quantity equals the cosine similarity of the original
vectors. -/
theorem scores_are_cosine_similarity :
    (∀ (s : VectorStore) (fid fn : String) (cs : List String) (emb : NDArray)
      (now : String) (s' : VectorStore) (ops : List FsOp),
      add_chunks s fid fn cs emb now = .ok (s', ops) →
      s'.vectors = s.vectors ++ emb.data.map normalizeL2) ∧
    (∀ v : List ℝ, 0 < sqNorm v → sqNorm (normalizeL2 v) = 1) ∧
    (∀ (s : VectorStore) (q : List ℝ) (top_k : Nat)
      (fids : Option (List String)) (out : List (ℝ × Int))
      (res : List SearchResult),
      AnnValid s.vectors (normalizeL2 q) out →
      search s q top_k fids out = .ok res →
      ∀ r ∈ res, ∃ i, i < s.vectors.length ∧
        r.score = 1 - sqDist (normalizeL2 q) (s.vectors.getD i []) / 2) ∧
    (∀ q v : List ℝ, 0 < sqNorm q → 0 < sqNorm v → q.length = v.length →
      1 - sqDist (normalizeL2 q) (normalizeL2 v) / 2 = cosineSim q v) := by
  refine ⟨?_, ?_, ?_, score_eq_cosine⟩
  · intro s fid fn cs emb now s' ops h
    exact (add_chunks_ok s fid fn cs emb now s' ops h).2.2.2.1
  · exact sqNorm_normalizeL2
  · intro s q top_k fids out res hann hrun r hr
    obtain ⟨d, i, c, hmem, hne, hg, he⟩ :=
      search_mem s q top_k fids out res hrun r hr
    obtain ⟨hpos, hlt, hd⟩ :=
      annValid_dist s.vectors (normalizeL2 q) out hann d i hmem hne
    exact ⟨i.toNat, hlt, by rw [he, hd]⟩

/-- Witness for claim C8, instantiating each conjunct at the demo data. -/
theorem scores_are_cosine_similarity_witness :
    demo_storeA.vectors = init_store.vectors ++ demo_embA.data.map normalizeL2 ∧
    sqNorm (normalizeL2 demo_e1) = 1 ∧
    (∃ i, i < demo_storeAB.vectors.length ∧
      (⟨"bravo", 1 - 0 / 2, "B", 0⟩ : SearchResult).score =
        1 - sqDist (normalizeL2 demo_e2) (demo_storeAB.vectors.getD i []) / 2) ∧
    1 - sqDist (normalizeL2 demo_e1) (normalizeL2 demo_e2) / 2 =
      cosineSim demo_e1 demo_e2 := by
  obtain ⟨h1, h2, h3, h4⟩ := scores_are_cosine_similarity
  refine ⟨h1 init_store "A" "a.txt" ["alpha"] demo_embA "t1" demo_storeA
      (save_all demo_storeA) demo_addA_eq,
    h2 demo_e1 (by rw [sqNorm_demo_e1]; norm_num),
    h3 demo_storeAB demo_e2 1 none [(0, 1)] [⟨"bravo", 1 - 0 / 2, "B", 0⟩]
      demo_annAB demo_search_pre_eq _ (List.mem_singleton.mpr rfl),
    h4 demo_e1 demo_e2 (by rw [sqNorm_demo_e1]; norm_num)
      (by rw [sqNorm_demo_e2]; norm_num)
      (by rw [demo_e1_length, demo_e2_length])⟩

/-- Claim C9: `search` on an empty index (no stored vectors) returns the empty
result list without an error, for every query, `top_k`, filter and ANN
answer. -/
theorem search_empty_index (s : VectorStore) (q : List ℝ) (top_k : Nat)
    (fids : Option (List String)) (out : List (ℝ × Int))
    (h : s.vectors = []) : search s q top_k fids out = .ok [] := by
  rw [search]
  rw [if_pos (by rw [VectorStore.ntotal, h]; rfl)]

/-- Witness for claim C9 at the freshly initialized store. -/
theorem search_empty_index_witness :
    search init_store demo_e1 3 none [] = .ok [] :=
  search_empty_index init_store demo_e1 3 none [] rfl

/-- Claim C10: with a truthy `file_ids` filter, `search` hands
`min (top_k * 10) ntotal` to the FAISS index; consequently there are index
contents holding at least `top_k` chunks of the requested document for which
the call returns fewer than `top_k` results: in `demo_storeC` ten chunks of
document "A" sit strictly nearer the query than document "B"'s chunk, the
k = 10 perfect-recall ANN answer contains only "A" chunks, and the filtered
search returns zero results although "B" has one (= `top_k`) chunk stored. -/
theorem filtered_search_k_cap_starvation :
    (∀ (s : VectorStore) (top_k : Nat) (fids : Option (List String)),
      fidsTruthy fids = true →
      searchK s top_k fids = min (top_k * 10) s.ntotal) ∧
    searchK demo_storeC 1 (some ["B"]) = 10 ∧
    FaissSearchSpec demo_storeC.vectors (normalizeL2 demo_e1) 10 demo_out10 ∧
    PerfectRecall demo_storeC.vectors (normalizeL2 demo_e1) demo_out10 ∧
    (demo_storeC.chunks.filter (fun c => c.file_id = "B")).length = 1 ∧
    search demo_storeC demo_e1 1 (some ["B"]) demo_out10 = .ok [] := by
  refine ⟨?_, ?_, demo_specC, demo_prC, by decide, demo_search_c10_eq⟩
  · intro s top_k fids h
    rw [searchK, h]
    simp
  · rw [searchK]
    decide

/-- Witness for claim C10 at the demo store and filter. -/
theorem filtered_search_k_cap_starvation_witness :
    searchK demo_storeC 1 (some ["B"]) = min (1 * 10) demo_storeC.ntotal := by
  exact filtered_search_k_cap_starvation.1 demo_storeC 1 (some ["B"]) rfl

end NeurographRag
